import Mathlib

/-!
Verification of the PancakeSwap triangular-arbitrage scanner.

Shallow embedding of the off-chain scanning engine:
JavaScript numbers are modelled as rationals (ℚ), addresses and symbols as
strings, the mutable `config.state` object as an explicit `ScanState` record,
and every external call (pool contract reads, token metadata reads, router
quotes) as an injected oracle function, with `Option` results standing for
call failures.  Timestamps are naturals (milliseconds).
-/

namespace PancakeScan

/-- Model of JavaScript `.toLowerCase()` on the ASCII strings used for
addresses (Lean's `String.toLower` does not reduce in the kernel, so the map
is taken over the character data directly). -/
def lowerString (s : String) : String := ⟨s.data.map Char.toLower⟩

/-- Stable insertion of `x` in front of the first element `y` with
`le x y = true`. -/
def insertSorted (le : α → α → Bool) (x : α) : List α → List α
  | [] => [x]
  | y :: ys => if le x y then x :: y :: ys else y :: insertSorted le x ys

/-- Model of JavaScript `Array.prototype.sort` with a numeric comparator:
the ECMAScript specification requires a stable sort, and for a total preorder
a stable sort's output is unique, so stable insertion sort has exactly the
same input/output behaviour. -/
def stableSort (le : α → α → Bool) (l : List α) : List α :=
  l.foldr (insertSorted le) []

/-! ### Configuration constants (config module)

Values taken verbatim from the scanner's config file. -/

def MIN_PROFIT_THRESHOLD : ℚ := 1/100

def MIN_LIQUIDITY_USD : ℚ := 50000

def GAS_PRICE : ℚ := 6

def TEST_AMOUNTS : List ℚ := [1, 100, 1000, 10000]

def FULL_REFRESH_INTERVAL : ℚ := 1000 * 60 * 5

def PRIORITY_REFRESH_INTERVAL : ℚ := 1000 * 20

def RESET_INTERVAL : ℚ := 1000 * 60 * 15

def POOLS_TO_SAMPLE : ℤ := 100

def RANDOM_START : ℤ := 0

def RANDOM_END : ℤ := 10000

def UNKNOW_TOKEN_SYMBOL : String := "UNKNOW_SYMBOL"

def UNKNOW_TOKEN_NAME : String := "UNKNOW_NAME"

/-- WBNB entry of `PRIORITY_TOKENS_MUTABLE`, in its exact (checksummed,
mixed-case) spelling from the config file. -/
def PRIORITY_TOKENS_WBNB : String := "0xbb4CdB9CBd36B01bD1cBaEBF2De08d9173bc095c"

def PRIORITY_TOKENS_BUSD : String := "0xe9e7CEA3DedcA5984780Bafc599bD69ADd087D56"

def PRIORITY_TOKENS_USDT : String := "0x55d398326f99059fF775485246999027B3197955"

def PRIORITY_TOKENS_USDC : String := "0x8AC76a51cc950d9822D68b83fE1Ad97B32Cd580d"

def PRIORITY_TOKENS_DAI : String := "0x1AF3F329e8BE154074D8769D1FFa4eE058B1DBc3"

/-- The stablecoin address set used for the USD-liquidity estimate
(lower-cased priority addresses of BUSD, USDT, USDC, DAI). -/
def STABLECOIN_SET : List String :=
  [lowerString PRIORITY_TOKENS_BUSD, lowerString PRIORITY_TOKENS_USDT,
   lowerString PRIORITY_TOKENS_USDC, lowerString PRIORITY_TOKENS_DAI]

/-- Maximum number of scan entries retained in the opportunity history file
(utils-file module). -/
def MAX_HISTORY_ENTRIES : ℕ := 20

/-! ### Data model (types module) -/

structure TokenInfo where
  name : String
  symbol : String
  decimals : ℕ
deriving DecidableEq, Repr

structure PoolTokenInfo where
  address : String
  name : String
  symbol : String
  decimals : ℕ
  reserve : ℚ
deriving DecidableEq, Repr

/-- Pool record held by the Pool State Store.  The decimal-string reserve and
price fields of the source are modelled as exact rationals; the ISO timestamp
`updated` is modelled as a millisecond clock value. -/
structure PoolData where
  index : ℤ
  address : String
  token0 : PoolTokenInfo
  token1 : PoolTokenInfo
  prices : List (String × ℚ)
  liquidityUSD : Option ℚ   -- none models the "unknown liquidity" sentinel string
  totalSupply : ℚ
  updated : ℕ
deriving DecidableEq, Repr

structure LocalEstimate where
  endAmount : ℚ
  profit : ℚ
  profitPercent : ℚ
deriving DecidableEq, Repr

structure TestResult where
  amount : ℚ
  profit : ℚ
  profitPercent : ℚ
  netProfit : ℚ
  endAmount : ℚ
  localEstimate : LocalEstimate
  skippedOnChain : Bool
deriving DecidableEq, Repr

structure ArbitragePathStep where
  poolAddress : String
  tokenIn : String
  tokenOut : String
  tokenInSymbol : String
  tokenOutSymbol : String
  tokenInDecimals : ℕ
  tokenOutDecimals : ℕ
deriving DecidableEq, Repr

structure ArbitrageOpportunity where
  startToken : String
  path : List ArbitragePathStep
  expectedProfit : ℚ
  profitPercent : ℚ
  estimatedGasCost : ℚ
  netProfit : ℚ
  testAmounts : List ℚ
  testResults : List TestResult
  bestAmount : ℚ
deriving DecidableEq, Repr

/-- Payload of a queued execution job (`StartArbitrageArgs`); the base-unit
borrow-amount string is modelled as the integer it denotes. -/
structure StartArbitrageArgs where
  token0 : String
  borrowAmount : ℤ
  token1 : String
  token2 : String
  deadLineMin : ℕ
  slippages : List ℕ
deriving DecidableEq, Repr

/-! ### Local trade calculation (calculate module)

`calculateLocalTradeOutput` walks the trade path and applies, per hop, the
constant-product-with-fee update
`currentAmount = reserveOut * currentAmount * 0.997 / (reserveIn + currentAmount * 0.997)`. -/

/-- One hop of the local constant-product-with-fee formula, exactly as written
in the loop body of `calculateLocalTradeOutput`. -/
def hopOut (reserveIn reserveOut amt : ℚ) : ℚ :=
  reserveOut * amt * (997/1000) / (reserveIn + amt * (997/1000))

structure PoolReserves where
  reserve0 : ℚ
  reserve1 : ℚ
deriving DecidableEq, Repr

/-- Loop of `calculateLocalTradeOutput` over consecutive path tokens.  An empty
pool address (falsy string) or a missing reserves entry aborts with 0, as in
the source. -/
def localWalk (reserves : String → Option PoolReserves)
    (findPoolForPair : String → String → String)
    (isToken0 : String → String → Bool) : ℚ → List String → ℚ
  | amt, tokenIn :: tokenOut :: rest =>
    let poolAddress := findPoolForPair tokenIn tokenOut
    if poolAddress = "" then 0
    else
      match reserves poolAddress with
      | none => 0
      | some pr =>
        let amt2 :=
          if isToken0 tokenIn poolAddress then hopOut pr.reserve0 pr.reserve1 amt
          else hopOut pr.reserve1 pr.reserve0 amt
        localWalk reserves findPoolForPair isToken0 amt2 (tokenOut :: rest)
  | amt, _ => amt

def calculateLocalTradeOutput (amount : ℚ) (path : List String)
    (reserves : String → Option PoolReserves)
    (findPoolForPair : String → String → String)
    (isToken0 : String → String → Bool) : ℚ :=
  localWalk reserves findPoolForPair isToken0 amount path

/-- C8 -- For a single hop with strictly positive reserves, the local-formula
output `reserveOut * in * 0.997 / (reserveIn + in * 0.997)` is strictly
increasing in the input amount over nonnegative inputs, and is strictly less
than `reserveOut` for every positive input. -/
theorem hopOut_strictMono_lt_reserveOut (reserveIn reserveOut : ℚ)
    (hIn : 0 < reserveIn) (hOut : 0 < reserveOut) :
    (∀ x y : ℚ, 0 ≤ x → x < y → hopOut reserveIn reserveOut x < hopOut reserveIn reserveOut y) ∧
    (∀ x : ℚ, 0 < x → hopOut reserveIn reserveOut x < reserveOut) := by
  constructor
  · intro x y hx hxy
    unfold hopOut
    have hdx : 0 < reserveIn + x * (997/1000) := by nlinarith
    have hdy : 0 < reserveIn + y * (997/1000) := by nlinarith
    rw [div_lt_div_iff hdx hdy]
    nlinarith [mul_pos hOut hIn, mul_pos (mul_pos hOut hIn) (show (0:ℚ) < 997/1000 by norm_num)]
  · intro x hx
    unfold hopOut
    have hdx : 0 < reserveIn + x * (997/1000) := by nlinarith
    rw [div_lt_iff hdx]
    nlinarith [mul_pos hOut hIn]

/-- Witness for C8 at reserves (1, 1) and inputs 1 < 2. -/
theorem hopOut_strictMono_lt_reserveOut_witness :
    hopOut 1 1 1 < hopOut 1 1 2 ∧ hopOut 1 1 2 < 1 :=
  ⟨(hopOut_strictMono_lt_reserveOut 1 1 (by norm_num) (by norm_num)).1 1 2 (by norm_num) (by norm_num),
   (hopOut_strictMono_lt_reserveOut 1 1 (by norm_num) (by norm_num)).2 2 (by norm_num)⟩

/-! ### Router quote with fallback (calculate module)

`getActualTradeOutput(amount, path)` calls the router's `getAmountsOut`; the
call is modelled by its (per-amount) result, `none` standing for a failed
call.  On failure the source falls back to `amount * 0.997` ("assume 0.3% fee
but no price impact"). -/

def getActualTradeOutput (quote : Option ℚ) (amount : ℚ) : ℚ :=
  match quote with
  | some result => result
  | none => amount * (997/1000)

/-! ### Triangular arbitrage calculation (calculate module)

`calculateTriangularArbitrage` builds a reserves table and two helper
closures from the three pools, then tests each amount of `TEST_AMOUNTS`:
local pre-filter, router verification for amounts that clear it, gas-cost
deduction, and best-amount selection.

The per-amount gas-cost conversion (a scan of the cached WBNB pools that does
not depend on the test amount) is abstracted by the parameter
`gasCostInStartToken`; the token cache is a total function `tokenCache`
(all three path tokens are cached by the pool loader before the finder runs). -/

/-- Reserves table keyed by the three pool addresses; in a JS object literal a
later duplicate key overwrites an earlier one, hence pool3 is consulted
first. -/
def calcReserves (pool1 pool2 pool3 : PoolData) : String → Option PoolReserves := fun a =>
  if a = pool3.address then some ⟨pool3.token0.reserve, pool3.token1.reserve⟩
  else if a = pool2.address then some ⟨pool2.token0.reserve, pool2.token1.reserve⟩
  else if a = pool1.address then some ⟨pool1.token0.reserve, pool1.token1.reserve⟩
  else none

/-- The `findPoolForPair` closure of `calculateTriangularArbitrage`. -/
def calcFindPoolForPair (startToken midToken destToken : String)
    (pool1 pool2 pool3 : PoolData) : String → String → String := fun tokenA tokenB =>
  if (tokenA = startToken ∧ tokenB = midToken) ∨ (tokenA = midToken ∧ tokenB = startToken) then
    pool1.address
  else if (tokenA = midToken ∧ tokenB = destToken) ∨ (tokenA = destToken ∧ tokenB = midToken) then
    pool2.address
  else if (tokenA = destToken ∧ tokenB = startToken) ∨ (tokenA = startToken ∧ tokenB = destToken) then
    pool3.address
  else ""

/-- The `isToken0` closure of `calculateTriangularArbitrage`. -/
def calcIsToken0 (pool1 pool2 pool3 : PoolData) : String → String → Bool := fun token poolAddress =>
  if poolAddress = pool1.address then token == pool1.token0.address
  else if poolAddress = pool2.address then token == pool2.token0.address
  else if poolAddress = pool3.address then token == pool3.token0.address
  else false

/-- Best-so-far tracking of the test-amount loop.  The source initialises
`bestProfitPercent = -Infinity` and a `hasAnyProfitableAmount` flag to false;
`none` here models that initial state (any percent beats `-Infinity`, and the
flag is set exactly when the best record is first assigned). -/
structure CalcBest where
  amount : ℚ
  profitPercent : ℚ
  profit : ℚ
  netProfit : ℚ
  gasCost : ℚ
deriving DecidableEq, Repr

structure CalcState where
  best : Option CalcBest
  localEstimatedProfit : Bool
  testResults : List TestResult
deriving DecidableEq, Repr

/-- Body of the `for (const amount of config.TEST_AMOUNTS)` loop. -/
def calcStep (tradePath : List String) (reserves : String → Option PoolReserves)
    (findPoolForPair : String → String → String) (isToken0 : String → String → Bool)
    (router : ℚ → Option ℚ) (gasCostInStartToken : ℚ)
    (st : CalcState) (amount : ℚ) : CalcState :=
  let localEstimate := calculateLocalTradeOutput amount tradePath reserves findPoolForPair isToken0
  let flashLoanFee := amount * (3/1000)
  let amountToRepay := amount + flashLoanFee
  let estimatedProfit := localEstimate - amountToRepay
  let estimatedProfitPercent := estimatedProfit / amount
  if MIN_PROFIT_THRESHOLD < estimatedProfitPercent then
    let endAmount := getActualTradeOutput (router amount) amount
    let profit := endAmount - amountToRepay
    let profitPercent := profit / amount
    let netProfit := profit - gasCostInStartToken
    let tr : TestResult :=
      ⟨amount, profit, profitPercent, netProfit, endAmount,
       ⟨localEstimate, estimatedProfit, estimatedProfitPercent⟩, false⟩
    let beatsBest : Bool :=
      match st.best with
      | none => true
      | some b => decide (b.profitPercent < profitPercent)
    let best2 :=
      if 0 < profitPercent ∧ beatsBest = true ∧ 0 < netProfit then
        some (⟨amount, profitPercent, profit, netProfit, gasCostInStartToken⟩ : CalcBest)
      else st.best
    ⟨best2, true, st.testResults ++ [tr]⟩
  else
    let tr : TestResult :=
      ⟨amount, estimatedProfit, estimatedProfitPercent, estimatedProfit, localEstimate,
       ⟨localEstimate, estimatedProfit, estimatedProfitPercent⟩, true⟩
    ⟨st.best, st.localEstimatedProfit, st.testResults ++ [tr]⟩

/-- Final state of the test-amount loop of `calculateTriangularArbitrage`. -/
def calcLoop (startToken midToken destToken : String) (pool1 pool2 pool3 : PoolData)
    (router : ℚ → Option ℚ) (gasCostInStartToken : ℚ) : CalcState :=
  TEST_AMOUNTS.foldl
    (calcStep [startToken, midToken, destToken, startToken]
      (calcReserves pool1 pool2 pool3)
      (calcFindPoolForPair startToken midToken destToken pool1 pool2 pool3)
      (calcIsToken0 pool1 pool2 pool3) router gasCostInStartToken)
    ⟨none, false, []⟩

def mkPathStep (poolAddress tokenIn tokenOut : String) (isTok0 : Bool)
    (pool : PoolData) (tokenCache : String → TokenInfo) : ArbitragePathStep :=
  ⟨poolAddress, tokenIn, tokenOut,
   (if isTok0 then pool.token0.symbol else pool.token1.symbol),
   (if isTok0 then pool.token1.symbol else pool.token0.symbol),
   (tokenCache tokenIn).decimals, (tokenCache tokenOut).decimals⟩

def mkOpportunity (startToken midToken destToken : String)
    (pool1 pool2 pool3 : PoolData) (tokenCache : String → TokenInfo)
    (b : CalcBest) (testResults : List TestResult) : ArbitrageOpportunity :=
  ⟨startToken,
   [mkPathStep pool1.address startToken midToken (pool1.token0.address == startToken) pool1 tokenCache,
    mkPathStep pool2.address midToken destToken (pool2.token0.address == midToken) pool2 tokenCache,
    mkPathStep pool3.address destToken startToken (pool3.token0.address == destToken) pool3 tokenCache],
   b.profit, b.profitPercent, b.gasCost, b.netProfit,
   TEST_AMOUNTS, testResults, b.amount⟩

def calculateTriangularArbitrage (startToken midToken destToken : String)
    (pool1 pool2 pool3 : PoolData) (router : ℚ → Option ℚ)
    (gasCostInStartToken : ℚ) (tokenCache : String → TokenInfo) :
    Option ArbitrageOpportunity :=
  -- when no amount is profitable but the local estimate was, the source only
  -- writes an analysis file (no semantic effect on the returned value)
  match calcLoop startToken midToken destToken pool1 pool2 pool3 router gasCostInStartToken with
  | ⟨some b, _, testResults⟩ =>
    some (mkOpportunity startToken midToken destToken pool1 pool2 pool3 tokenCache b testResults)
  | ⟨none, _, _⟩ => none

/-- Dispatch condition of `findArbitrageOpportunities`: the opportunity is
validated and sent only when `profitPercent` exceeds the externally injected
threshold override (`INPUT_ARGS.percent`) when present, otherwise the
configured default (the `??` operator). -/
def dispatchGate (inputPercent : Option ℚ) (opp : ArbitrageOpportunity) : Bool :=
  decide (inputPercent.getD MIN_PROFIT_THRESHOLD < opp.profitPercent)

/-! ### Validation before dispatch (calculate module) -/

inductive DispatchOutcome where
  | invalid
  | baseTokenRejected
  | sent
deriving DecidableEq, Repr

/-- `validateOpportunityAndSend`: structural/falsiness validation, then the
base-token check against the exact `PRIORITY_TOKENS_MUTABLE.WBNB` string,
then hand-off to `sendArbitrage` (`sent`).  The JS falsiness checks on the
array fields `path`, `testAmounts`, `testResults` are vacuous (arrays are
always truthy) and the number checks reject exactly 0. -/
def validateOpportunityAndSend (opportunity : ArbitrageOpportunity) : DispatchOutcome :=
  if opportunity.startToken = "" ∨ opportunity.bestAmount = 0 ∨
      opportunity.expectedProfit = 0 ∨ opportunity.profitPercent = 0 ∨
      opportunity.netProfit = 0 ∨ opportunity.bestAmount < 100 then
    DispatchOutcome.invalid
  else if opportunity.path.any fun step =>
      step.tokenIn == PRIORITY_TOKENS_WBNB || step.tokenOut == PRIORITY_TOKENS_WBNB then
    DispatchOutcome.baseTokenRejected
  else
    DispatchOutcome.sent

/-! ### Opportunity history file (utils-file module) -/

structure HistoryEntry where
  timestamp : ℕ
  opportunities : List ArbitrageOpportunity
deriving DecidableEq, Repr

/-- `saveArbitrageOpportunities`: append the new scan entry, sort the history
newest-first (JS comparator `b.timestamp - a.timestamp`, stable), then keep
`slice(-MAX_HISTORY_ENTRIES)`, i.e. the LAST `MAX_HISTORY_ENTRIES` elements
of the sorted array. -/
def saveArbitrageOpportunities (opportunities : List ArbitrageOpportunity) (limit : ℕ)
    (history : List HistoryEntry) (now : ℕ) : List HistoryEntry :=
  if opportunities.isEmpty then history
  else
    let pushed := history ++ [⟨now, opportunities.take limit⟩]
    let sorted := stableSort (fun a b => decide (b.timestamp ≤ a.timestamp)) pushed
    if MAX_HISTORY_ENTRIES < sorted.length then
      sorted.drop (sorted.length - MAX_HISTORY_ENTRIES)
    else sorted

/-! ### Random pool sampling (utils-pool module, current revision)

`Math.random()` is modelled by an injected stream `rand : ℕ → ℚ` of values in
`[0, 1)`; the unbounded `while` loop is modelled with explicit fuel, the
returned Bool recording whether the loop's guard became false (the loop
terminated) within the given fuel.  A JS `Set` preserves insertion order,
modelled by a duplicate-free list built by conditional append. -/

def drawIndex (rand : ℕ → ℚ) (k : ℕ) (lo hi : ℤ) : ℤ :=
  ⌊rand k * (hi - lo + 1)⌋ + lo

def genLoop (rand : ℕ → ℚ) (lo hi count : ℤ) : ℕ → ℕ → List ℤ → List ℤ × Bool
  | 0, _, acc => (acc, false)
  | fuel+1, k, acc =>
    if (acc.length : ℤ) < count ∧ (acc.length : ℤ) < hi - lo + 1 then
      genLoop rand lo hi count fuel (k+1)
        (if drawIndex rand k lo hi ∈ acc then acc else acc ++ [drawIndex rand k lo hi])
    else (acc, true)

/-- The `for (let i = max; i > max - POOLS_NEWLY_ADDED; i--)` loop that always
adds the newest pool indices to the set: step `j` (counting from 0) inserts
`max - j`, for `POOLS_NEWLY_ADDED` steps. -/
def newlyAddedGo (hi : ℤ) : ℕ → ℕ → List ℤ → List ℤ
  | 0, _, acc => acc
  | n+1, j, acc =>
    newlyAddedGo hi n (j+1) (if hi - (j : ℤ) ∈ acc then acc else acc ++ [hi - (j : ℤ)])

def newlyAddedFold (hi : ℤ) (newlyAdded : ℤ) (acc : List ℤ) : List ℤ :=
  newlyAddedGo hi newlyAdded.toNat 0 acc

/-- `generateRandomPoolIndices` of the current utils-pool revision.  The
constant `POOLS_NEWLY_ADDED` is not defined in the available sources and is
passed as the parameter `newlyAdded`. -/
def generateRandomPoolIndices (count lo hi totalPools newlyAdded : ℤ)
    (rand : ℕ → ℚ) (fuel : ℕ) : List ℤ × Bool :=
  let hi2 := min hi (totalPools - 1)
  let run := genLoop rand lo hi2 count fuel 0 []
  (newlyAddedFold hi2 newlyAdded run.1, run.2)

/-- `generateRandomPoolIndices` of the earlier utils-pool revision (without
the newly-added-pools loop). -/
def generateRandomPoolIndicesB (count lo hi totalPools : ℤ)
    (rand : ℕ → ℚ) (fuel : ℕ) : List ℤ × Bool :=
  let hi2 := min hi (totalPools - 1)
  genLoop rand lo hi2 count fuel 0 []

/-! ### Scanner state and sampling reset (config + utils-pool modules) -/

/-- The mutable `config.state` object.  Maps are association lists (first
match wins on lookup). -/
structure ScanState where
  lastProfitFound : ℕ
  currentPoolIndices : List ℤ
  totalPools : ℤ
  tokenCache : List (String × TokenInfo)
  poolsMap : List (String × PoolData)
  tokenPools : List (String × List String)
deriving DecidableEq, Repr

/-- `resetPoolSelection` of the current utils-pool revision: clears
`poolsMap`, regenerates `currentPoolIndices`, resets `lastProfitFound`.
It does NOT touch `tokenPools`. -/
def resetPoolSelection (st : ScanState) (now : ℕ) (newlyAdded : ℤ)
    (rand : ℕ → ℚ) (fuel : ℕ) : ScanState :=
  { st with
    poolsMap := []
    currentPoolIndices :=
      (generateRandomPoolIndices POOLS_TO_SAMPLE RANDOM_START RANDOM_END
        st.totalPools newlyAdded rand fuel).1
    lastProfitFound := now }

/-- `resetPoolSelection` of the earlier utils-pool revision: clears both
`poolsMap` and `tokenPools`, regenerates indices, resets the timer. -/
def resetPoolSelectionB (st : ScanState) (now : ℕ)
    (rand : ℕ → ℚ) (fuel : ℕ) : ScanState :=
  { st with
    poolsMap := []
    tokenPools := []
    currentPoolIndices :=
      (generateRandomPoolIndicesB POOLS_TO_SAMPLE RANDOM_START RANDOM_END
        st.totalPools rand fuel).1
    lastProfitFound := now }

/-! ### C2: the base-token rejection against scanner-produced paths

`findArbitrageOpportunities` lower-cases every token address before building
opportunities, while `validateOpportunityAndSend` compares path tokens with
the mixed-case `PRIORITY_TOKENS_MUTABLE.WBNB` constant. -/

/-- Lower-cased WBNB address, the form in which the chain's base asset appears
in every path step built by the finder. -/
def wbnbLower : String := lowerString PRIORITY_TOKENS_WBNB

/-- An opportunity exactly as the finder produces it for a cycle through WBNB:
all path token addresses lower-cased, structurally valid, `bestAmount`
above the 100 floor. -/
def oppThroughWBNB : ArbitrageOpportunity :=
  ⟨wbnbLower,
   [⟨"0xpool1", wbnbLower, "0xaaa", "WBNB", "AAA", 18, 18⟩,
    ⟨"0xpool2", "0xaaa", "0xbbb", "AAA", "BBB", 18, 18⟩,
    ⟨"0xpool3", "0xbbb", wbnbLower, "BBB", "WBNB", 18, 18⟩],
   5, 1, 1, 4, TEST_AMOUNTS, [], 1000⟩

/-- C2 -- Evaluation at the failing input: an opportunity whose first and last
path steps carry the chain's base asset WBNB (in the lower-cased form the
finder always produces) is NOT rejected by `validateOpportunityAndSend`; it is
handed to `sendArbitrage`.  The case-sensitive comparison with the mixed-case
config constant never fires on scanner-produced paths. -/
theorem validate_sends_wbnb_path :
    validateOpportunityAndSend oppThroughWBNB = DispatchOutcome.sent ∧
    (oppThroughWBNB.path.any fun s =>
      s.tokenIn == lowerString PRIORITY_TOKENS_WBNB || s.tokenOut == lowerString PRIORITY_TOKENS_WBNB) = true := by
  decide

/-! ### C4: history-file bounding drops the newest entries -/

def dummyOpportunity : ArbitrageOpportunity := ⟨"t", [], 0, 0, 0, 0, [], [], 0⟩

/-- A full history of `MAX_HISTORY_ENTRIES` scan entries with timestamps
100, 99, ..., 81 (newest-first, as produced by prior saves). -/
def historyTwenty : List HistoryEntry :=
  (List.range 20).map fun k => ⟨100 - k, [dummyOpportunity]⟩

/-- C4 -- Evaluation at the failing input: saving a non-empty opportunity list
at time 200 into a full history leaves the file EXACTLY as it was -- the
newly written entry (timestamp 200), the most recent one ever written, is the
one discarded by `slice(-MAX_HISTORY_ENTRIES)` after the newest-first sort,
while the 20 oldest entries are retained. -/
theorem save_drops_newest_entry :
    saveArbitrageOpportunities [dummyOpportunity] 100 historyTwenty 200 = historyTwenty ∧
    ((saveArbitrageOpportunities [dummyOpportunity] 100 historyTwenty 200).all
      fun e => decide (e.timestamp ≠ 200)) = true := by
  decide

/-! ### C5: what the sampling reset clears -/

def stateWithTokenIndex : ScanState :=
  ⟨0, [], 0, [], [], [("0xtok", ["0xpool"])]⟩

/-- C5 counterexample -- after `resetPoolSelection` (current utils-pool
revision) returns, the Token→Pools Index is NOT empty: the pre-existing entry
survives the reset untouched. -/
theorem resetPoolSelection_keeps_tokenPools :
    (resetPoolSelection stateWithTokenIndex 5 1 (fun _ => 0) 0).tokenPools =
      stateWithTokenIndex.tokenPools ∧
    stateWithTokenIndex.tokenPools ≠ [] := by
  decide

/-- C5 (amended) -- after the current revision's `resetPoolSelection`, the
Pool State Store is empty, `currentPoolIndices` is freshly regenerated and
`lastProfitFound` equals the current time, but the Token→Pools Index is left
unchanged; the earlier revision (`resetPoolSelectionB`) additionally clears
the Token→Pools Index. -/
theorem resetPoolSelection_state (st : ScanState) (now : ℕ) (newlyAdded : ℤ)
    (rand : ℕ → ℚ) (fuel : ℕ) :
    (resetPoolSelection st now newlyAdded rand fuel).poolsMap = [] ∧
    (resetPoolSelection st now newlyAdded rand fuel).tokenPools = st.tokenPools ∧
    (resetPoolSelection st now newlyAdded rand fuel).lastProfitFound = now ∧
    (resetPoolSelection st now newlyAdded rand fuel).currentPoolIndices =
      (generateRandomPoolIndices POOLS_TO_SAMPLE RANDOM_START RANDOM_END
        st.totalPools newlyAdded rand fuel).1 ∧
    (resetPoolSelectionB st now rand fuel).poolsMap = [] ∧
    (resetPoolSelectionB st now rand fuel).tokenPools = [] ∧
    (resetPoolSelectionB st now rand fuel).lastProfitFound = now ∧
    (resetPoolSelectionB st now rand fuel).currentPoolIndices =
      (generateRandomPoolIndicesB POOLS_TO_SAMPLE RANDOM_START RANDOM_END
        st.totalPools rand fuel).1 :=
  ⟨rfl, rfl, rfl, rfl, rfl, rfl, rfl, rfl⟩

/-! ### C1: soundness of the best-amount selection -/

/-- Invariant of the test-amount loop: while no best record exists, no
verified test result qualifies (positive percent and positive net profit);
once one exists, it is positive-profit, backed by a verified test result at
its amount, and maximal among qualifying verified results. -/
def CalcInv (st : CalcState) : Prop :=
  (st.best = none → ∀ tr ∈ st.testResults, tr.skippedOnChain = false →
    ¬(0 < tr.profitPercent ∧ 0 < tr.netProfit)) ∧
  ∀ b, st.best = some b →
    0 < b.profitPercent ∧ 0 < b.netProfit ∧
    (∃ tr ∈ st.testResults, tr.skippedOnChain = false ∧ tr.amount = b.amount ∧
      tr.profitPercent = b.profitPercent ∧ tr.netProfit = b.netProfit ∧
      tr.profit = b.profit) ∧
    (∀ tr ∈ st.testResults, tr.skippedOnChain = false → 0 < tr.profitPercent →
      0 < tr.netProfit → tr.profitPercent ≤ b.profitPercent)

theorem calcStep_inv (tradePath : List String) (reserves : String → Option PoolReserves)
    (findPoolForPair : String → String → String) (isToken0 : String → String → Bool)
    (router : ℚ → Option ℚ) (gasCost : ℚ) (st : CalcState) (amount : ℚ)
    (h : CalcInv st) :
    CalcInv (calcStep tradePath reserves findPoolForPair isToken0 router gasCost st amount) := by
  unfold calcStep
  set localEstimate := calculateLocalTradeOutput amount tradePath reserves findPoolForPair isToken0 with hLE
  set endAmount := getActualTradeOutput (router amount) amount with hEA
  set profit := endAmount - (amount + amount * (3/1000)) with hPR
  set profitPercent := profit / amount with hPP
  set netProfit := profit - gasCost with hNP
  by_cases hpre : MIN_PROFIT_THRESHOLD < (localEstimate - (amount + amount * (3/1000))) / amount
  · rw [if_pos hpre]
    dsimp only []
    by_cases hq : 0 < profitPercent ∧
        (match st.best with
          | none => true
          | some b => decide (b.profitPercent < profitPercent)) = true ∧ 0 < netProfit
    · rw [if_pos hq]
      rcases hq with ⟨hpp, hbeats, hnp⟩
      constructor
      · intro hnone; cases hnone
      · intro b hb
        have hbeq : b = ⟨amount, profitPercent, profit, netProfit, gasCost⟩ :=
          (Option.some_injective _ hb).symm
        subst hbeq
        refine ⟨hpp, hnp, ⟨_, List.mem_append_right _ (List.mem_singleton.mpr rfl),
          rfl, rfl, rfl, rfl, rfl⟩, ?_⟩
        intro tr htr hskip htrpp htrnp
        rcases List.mem_append.mp htr with hold | hnew
        · rcases hsb : st.best with _ | bOld
          · exact absurd ⟨htrpp, htrnp⟩ (h.1 hsb tr hold hskip)
          · rw [hsb] at hbeats
            have hblt : bOld.profitPercent < profitPercent := of_decide_eq_true hbeats
            exact le_of_lt (lt_of_le_of_lt ((h.2 bOld hsb).2.2.2 tr hold hskip htrpp htrnp) hblt)
        · rw [List.mem_singleton.mp hnew]
    · rw [if_neg hq]
      constructor
      · intro hnone tr htr hskip hqual
        rcases List.mem_append.mp htr with hold | hnew
        · exact h.1 hnone tr hold hskip hqual
        · rw [List.mem_singleton.mp hnew] at hqual
          exact hq ⟨hqual.1, by rw [hnone], hqual.2⟩
      · intro b hb
        obtain ⟨h1, h2, ⟨tr0, htr0, hrest0⟩, hmax⟩ := h.2 b hb
        refine ⟨h1, h2, ⟨tr0, List.mem_append_left _ htr0, hrest0⟩, ?_⟩
        intro tr htr hskip htrpp htrnp
        rcases List.mem_append.mp htr with hold | hnew
        · exact hmax tr hold hskip htrpp htrnp
        · rw [List.mem_singleton.mp hnew] at htrpp htrnp ⊢
          by_contra hgt
          push_neg at hgt
          exact hq ⟨htrpp, by rw [hb]; exact decide_eq_true hgt, htrnp⟩
  · rw [if_neg hpre]
    dsimp only []
    constructor
    · intro hnone tr htr hskip hqual
      rcases List.mem_append.mp htr with hold | hnew
      · exact h.1 hnone tr hold hskip hqual
      · rw [List.mem_singleton.mp hnew] at hskip
        cases hskip
    · intro b hb
      obtain ⟨h1, h2, ⟨tr0, htr0, hrest0⟩, hmax⟩ := h.2 b hb
      refine ⟨h1, h2, ⟨tr0, List.mem_append_left _ htr0, hrest0⟩, ?_⟩
      intro tr htr hskip htrpp htrnp
      rcases List.mem_append.mp htr with hold | hnew
      · exact hmax tr hold hskip htrpp htrnp
      · rw [List.mem_singleton.mp hnew] at hskip
        cases hskip

theorem calcFold_inv (tradePath : List String) (reserves : String → Option PoolReserves)
    (findPoolForPair : String → String → String) (isToken0 : String → String → Bool)
    (router : ℚ → Option ℚ) (gasCost : ℚ) :
    ∀ (amounts : List ℚ) (st : CalcState), CalcInv st →
      CalcInv (amounts.foldl (calcStep tradePath reserves findPoolForPair isToken0 router gasCost) st)
  | [], _, h => h
  | _ :: rest, st, h =>
    calcFold_inv tradePath reserves findPoolForPair isToken0 router gasCost rest _
      (calcStep_inv tradePath reserves findPoolForPair isToken0 router gasCost st _ h)

theorem calcLoop_inv (startToken midToken destToken : String) (pool1 pool2 pool3 : PoolData)
    (router : ℚ → Option ℚ) (gasCost : ℚ) :
    CalcInv (calcLoop startToken midToken destToken pool1 pool2 pool3 router gasCost) := by
  apply calcFold_inv
  exact ⟨fun _ tr htr => absurd htr (List.not_mem_nil tr),
    fun b hb => by cases hb⟩

/-- C1 -- Every opportunity that passes the dispatch gate of
`findArbitrageOpportunities` satisfies, at its `bestAmount`:
`profitPercent` strictly above the configured minimum threshold (the injected
override when present, else the default) and `netProfit` strictly positive;
moreover `bestAmount` is a tested size with a verified (non-skipped) result
whose `profitPercent` and `netProfit` are the dispatched values and whose
`profitPercent` is maximal among all verified results with positive
`profitPercent` and positive `netProfit`. -/
theorem dispatched_opportunity_sound (startToken midToken destToken : String)
    (pool1 pool2 pool3 : PoolData) (router : ℚ → Option ℚ) (gasCost : ℚ)
    (tokenCache : String → TokenInfo) (inputPercent : Option ℚ)
    (opp : ArbitrageOpportunity)
    (hcalc : calculateTriangularArbitrage startToken midToken destToken
      pool1 pool2 pool3 router gasCost tokenCache = some opp)
    (hgate : dispatchGate inputPercent opp = true) :
    inputPercent.getD MIN_PROFIT_THRESHOLD < opp.profitPercent ∧
    0 < opp.netProfit ∧
    (∃ tr ∈ opp.testResults, tr.skippedOnChain = false ∧ tr.amount = opp.bestAmount ∧
      tr.profitPercent = opp.profitPercent ∧ tr.netProfit = opp.netProfit) ∧
    (∀ tr ∈ opp.testResults, tr.skippedOnChain = false → 0 < tr.profitPercent →
      0 < tr.netProfit → tr.profitPercent ≤ opp.profitPercent) := by
  have hinv := calcLoop_inv startToken midToken destToken pool1 pool2 pool3 router gasCost
  unfold calculateTriangularArbitrage at hcalc
  rcases hF : calcLoop startToken midToken destToken pool1 pool2 pool3 router gasCost with
    ⟨best, lep, trs⟩
  rw [hF] at hcalc hinv
  match best, hcalc with
  | some b, hcalc =>
    have hopp : opp = mkOpportunity startToken midToken destToken pool1 pool2 pool3 tokenCache b trs :=
      (Option.some_injective _ hcalc).symm
    have hgate2 : inputPercent.getD MIN_PROFIT_THRESHOLD < opp.profitPercent :=
      of_decide_eq_true hgate
    obtain ⟨h1, h2, ⟨tr, htr, hskip, hamt, hpp, hnp, _⟩, hmax⟩ := hinv.2 b rfl
    subst hopp
    exact ⟨hgate2, h2, ⟨tr, htr, hskip, hamt, hpp, hnp⟩, hmax⟩

/-! ### Concrete scenario used to witness the calculation theorems -/

def poolW1 : PoolData := ⟨-1, "p1", ⟨"a", "A", "A", 18, 997⟩, ⟨"b", "B", "B", 18, 4000⟩, [], none, 0, 0⟩

def poolW2 : PoolData := ⟨-1, "p2", ⟨"b", "B", "B", 18, 1994⟩, ⟨"c", "C", "C", 18, 8000⟩, [], none, 0, 0⟩

def poolW3 : PoolData := ⟨-1, "p3", ⟨"c", "C", "C", 18, 3988⟩, ⟨"a", "A", "A", 18, 16000⟩, [], none, 0, 0⟩

def routerW : ℚ → Option ℚ := fun a => some (2 * a)

def cacheW : String → TokenInfo := fun _ => ⟨"T", "T", 18⟩

/-- The opportunity the embedded `calculateTriangularArbitrage` produces on
the scenario pools with a doubling router quote and zero gas cost. -/
def oppWitness : ArbitrageOpportunity :=
  ⟨"a",
   [⟨"p1", "a", "b", "A", "B", 18, 18⟩, ⟨"p2", "b", "c", "B", "C", 18, 18⟩,
    ⟨"p3", "c", "a", "C", "A", 18, 18⟩],
   997/1000, 997/1000, 0, 997/1000, [1, 100, 1000, 10000],
   [⟨1, 997/1000, 997/1000, 997/1000, 2, ⟨64000/1007, 62989979/1007000, 62989979/1007000⟩, false⟩,
    ⟨100, 997/10, 997/1000, 997/10, 200, ⟨64000/17, 622949/170, 622949/17000⟩, false⟩,
    ⟨1000, 997, 997/1000, 997, 2000, ⟨8000, 6997, 6997/1000⟩, false⟩,
    ⟨10000, -72130/71, -7213/71000, -72130/71, 640000/71, ⟨640000/71, -72130/71, -7213/71000⟩, true⟩],
   1⟩

/-- Witness for C1: the scenario opportunity is dispatched (no threshold
override, so the default applies) and the guarantees hold at it. -/
theorem dispatched_opportunity_sound_witness :
    (none : Option ℚ).getD MIN_PROFIT_THRESHOLD < oppWitness.profitPercent ∧
    0 < oppWitness.netProfit := by
  have H := dispatched_opportunity_sound "a" "b" "c" poolW1 poolW2 poolW3 routerW 0 cacheW
    none oppWitness
    (by
      norm_num +decide [calculateTriangularArbitrage, calcLoop, calcStep, TEST_AMOUNTS,
        calculateLocalTradeOutput, localWalk, calcReserves, calcFindPoolForPair, calcIsToken0,
        getActualTradeOutput, hopOut, mkOpportunity, mkPathStep, poolW1, poolW2, poolW3,
        routerW, cacheW, MIN_PROFIT_THRESHOLD, oppWitness])
    (by norm_num [dispatchGate, oppWitness, MIN_PROFIT_THRESHOLD])
  exact ⟨H.1, H.2.1⟩

/-! ### C10: silent fallback on router-quote failure -/

/-- Predicate picking out a verified test result at amount `a` whose quoted
end amount is the failure fallback `a * 0.997` (and whose profit is therefore
computed from that fabricated value). -/
def fallbackRecordAt (a : ℚ) (tr : TestResult) : Bool :=
  decide (tr.amount = a) && !tr.skippedOnChain &&
  decide (tr.endAmount = a * (997/1000)) &&
  decide (tr.profit = a * (997/1000) - (a + a * (3/1000)))

theorem calcStep_any_mono (tradePath : List String) (reserves : String → Option PoolReserves)
    (findPoolForPair : String → String → String) (isToken0 : String → String → Bool)
    (router : ℚ → Option ℚ) (gasCost : ℚ) (st : CalcState) (amt : ℚ)
    (p : TestResult → Bool) (h : st.testResults.any p = true) :
    (calcStep tradePath reserves findPoolForPair isToken0 router gasCost st amt).testResults.any p = true := by
  unfold calcStep
  dsimp only []
  split
  · simp [List.any_append, h]
  · simp [List.any_append, h]

theorem calcStep_records_fallback (tradePath : List String)
    (reserves : String → Option PoolReserves)
    (findPoolForPair : String → String → String) (isToken0 : String → String → Bool)
    (router : ℚ → Option ℚ) (gasCost : ℚ) (st : CalcState) (a : ℚ)
    (hfail : router a = none)
    (hpre : MIN_PROFIT_THRESHOLD <
      (calculateLocalTradeOutput a tradePath reserves findPoolForPair isToken0 -
        (a + a * (3/1000))) / a) :
    (calcStep tradePath reserves findPoolForPair isToken0 router gasCost st a).testResults.any
      (fallbackRecordAt a) = true := by
  unfold calcStep
  dsimp only []
  rw [if_pos hpre]
  rw [List.any_append]
  apply Bool.or_eq_true_iff.mpr
  right
  simp [fallbackRecordAt, hfail, getActualTradeOutput]

theorem calcFold_any_mono (tradePath : List String) (reserves : String → Option PoolReserves)
    (findPoolForPair : String → String → String) (isToken0 : String → String → Bool)
    (router : ℚ → Option ℚ) (gasCost : ℚ) (p : TestResult → Bool) :
    ∀ (amounts : List ℚ) (st : CalcState), st.testResults.any p = true →
      ((amounts.foldl (calcStep tradePath reserves findPoolForPair isToken0 router gasCost) st).testResults.any p) = true
  | [], _, h => h
  | _ :: rest, st, h =>
    calcFold_any_mono tradePath reserves findPoolForPair isToken0 router gasCost p rest _
      (calcStep_any_mono tradePath reserves findPoolForPair isToken0 router gasCost st _ p h)

theorem calcFold_records_fallback (tradePath : List String)
    (reserves : String → Option PoolReserves)
    (findPoolForPair : String → String → String) (isToken0 : String → String → Bool)
    (router : ℚ → Option ℚ) (gasCost : ℚ) (a : ℚ)
    (hfail : router a = none)
    (hpre : MIN_PROFIT_THRESHOLD <
      (calculateLocalTradeOutput a tradePath reserves findPoolForPair isToken0 -
        (a + a * (3/1000))) / a) :
    ∀ (amounts : List ℚ) (st : CalcState), a ∈ amounts →
      ((amounts.foldl (calcStep tradePath reserves findPoolForPair isToken0 router gasCost) st).testResults.any
        (fallbackRecordAt a)) = true := by
  intro amounts
  induction amounts with
  | nil => intro st hmem; cases hmem
  | cons b rest ih =>
    intro st hmem
    rw [List.foldl_cons]
    rcases List.mem_cons.mp hmem with hb | hrest
    · subst hb
      exact calcFold_any_mono tradePath reserves findPoolForPair isToken0 router gasCost _ rest _
        (calcStep_records_fallback tradePath reserves findPoolForPair isToken0
          router gasCost st a hfail hpre)
    · exact ih _ hrest

/-- C10 -- If the router quote fails (`none`) at a tested size whose local
estimate clears the pre-filter, the error is not propagated: the loop records
a verified (non-skipped) test result at that size whose quoted end amount is
the fabricated fallback `amount * 0.997`, and whose profit is computed from
that fallback value; the best-amount selection then runs over this record
like any genuine quote. -/
theorem router_failure_fallback_recorded (startToken midToken destToken : String)
    (pool1 pool2 pool3 : PoolData) (router : ℚ → Option ℚ) (gasCost : ℚ) (a : ℚ)
    (hmem : a ∈ TEST_AMOUNTS)
    (hfail : router a = none)
    (hpre : MIN_PROFIT_THRESHOLD <
      (calculateLocalTradeOutput a [startToken, midToken, destToken, startToken]
        (calcReserves pool1 pool2 pool3)
        (calcFindPoolForPair startToken midToken destToken pool1 pool2 pool3)
        (calcIsToken0 pool1 pool2 pool3) -
        (a + a * (3/1000))) / a) :
    ((calcLoop startToken midToken destToken pool1 pool2 pool3 router gasCost).testResults.any
      (fallbackRecordAt a)) = true :=
  calcFold_records_fallback _ _ _ _ router gasCost a hfail hpre TEST_AMOUNTS _ hmem

/-- Witness for C10: on the scenario pools with an always-failing router, the
fallback record at tested size 1000 is present and verified. -/
theorem router_failure_fallback_recorded_witness :
    ((calcLoop "a" "b" "c" poolW1 poolW2 poolW3 (fun _ => none) 0).testResults.any
      (fallbackRecordAt 1000)) = true :=
  router_failure_fallback_recorded "a" "b" "c" poolW1 poolW2 poolW3 (fun _ => none) 0 1000
    (by norm_num [TEST_AMOUNTS])
    rfl
    (by
      norm_num +decide [calculateLocalTradeOutput, localWalk, calcReserves,
        calcFindPoolForPair, calcIsToken0, hopOut, poolW1, poolW2, poolW3, MIN_PROFIT_THRESHOLD])

/-! ### Scaled follow-up job (send module)

`sendAnotherArbitrage` sorts the verified test results by amount (JS
`Array.prototype.sort`, comparator `a.amount - b.amount`); if no adjacent
pair's `profitPercent` decreases, it queues exactly one larger job sized by
`calculateSafeTradeAmount` under tighter slippage `[990, 990, 990]`.  The
returned `Option` is the job handed to `arbitrageQueue.add` (`none`: no job).
With `isTesting = true` the guard at the top of the `try` block throws (the
job name is the constant "flash"), so no job is queued. -/

def calculateSafeTradeAmount (poolLiquidities : List ℚ) (tokenDecimals : ℕ) : ℤ :=
  match poolLiquidities.filter (fun liq => decide (0 < liq)) with
  | [] => 100000 * 10 ^ tokenDecimals
  | h :: t =>
    let minLiquidity := t.foldl min h
    let safePercentage : ℚ :=
      if 1000000 < minLiquidity then 3/1000
      else if 100000 < minLiquidity then 8/1000
      else 15/1000
    let safeLiquidityAmount := minLiquidity * safePercentage
    let maxAmount := min safeLiquidityAmount 100000
    let roundedAmount := ⌊maxAmount / 100⌋ * 100
    roundedAmount * 10 ^ tokenDecimals

/-- The `isContinue` scan: false as soon as some adjacent pair of the sorted
results has a strictly decreasing `profitPercent`. -/
def monotoneProfitCheck : List TestResult → Bool
  | a :: b :: rest => !(decide (b.profitPercent < a.profitPercent)) && monotoneProfitCheck (b :: rest)
  | _ => true

/-- Pool liquidities along the path, the unknown-liquidity sentinel and
missing pools both read as 0. -/
def pathPoolLiquidities (path : List ArbitragePathStep)
    (poolsMap : String → Option PoolData) : List ℚ :=
  path.map fun step =>
    match poolsMap step.poolAddress with
    | some pool => pool.liquidityUSD.getD 0
    | none => 0

def sendAnotherArbitrage (jobPayload : StartArbitrageArgs) (path : List ArbitragePathStep)
    (testResults : List TestResult) (borrowTokenDecimals : ℕ)
    (poolsMap : String → Option PoolData) (isTesting : Bool) : Option StartArbitrageArgs :=
  if isTesting then none
  else if testResults.length < 3 then none
  else
    let sorted := stableSort (fun a b => decide (a.amount ≤ b.amount)) testResults
    if monotoneProfitCheck sorted then
      let borrowAmountStr := calculateSafeTradeAmount (pathPoolLiquidities path poolsMap) borrowTokenDecimals
      some { jobPayload with borrowAmount := borrowAmountStr, slippages := [990, 990, 990] }
    else none

theorem stableSort_of_chain (le : α → α → Bool) :
    ∀ l : List α, List.Chain' (fun a b => le a b = true) l → stableSort le l = l
  | [], _ => rfl
  | [x], _ => rfl
  | x :: y :: rest, h => by
    have hxy : le x y = true := (List.chain'_cons.mp h).1
    have ih := stableSort_of_chain le (y :: rest) (List.chain'_cons.mp h).2
    unfold stableSort at ih ⊢
    rw [List.foldr_cons, ih, insertSorted, if_pos hxy]

theorem monotoneProfitCheck_iff :
    ∀ l : List TestResult, monotoneProfitCheck l = true ↔
      List.Chain' (fun a b => a.profitPercent ≤ b.profitPercent) l
  | [] => by simp [monotoneProfitCheck]
  | [x] => by simp [monotoneProfitCheck]
  | x :: y :: rest => by
    rw [monotoneProfitCheck, List.chain'_cons, Bool.and_eq_true,
      monotoneProfitCheck_iff (y :: rest), Bool.not_eq_true', decide_eq_false_iff_not, not_lt]

/-- C3 -- With at least three verified test results listed in increasing
amount order: when `profitPercent` strictly increases across all tested
sizes, `sendAnotherArbitrage` queues exactly one additional scaled job, sized
by `calculateSafeTradeAmount` from the minimum pool liquidity along the path
and carrying the tighter slippages `[990, 990, 990]`; when the sequence is
non-monotonic (some adjacent pair decreases), it queues none. -/
theorem scaled_job_iff_monotone (jobPayload : StartArbitrageArgs)
    (path : List ArbitragePathStep) (testResults : List TestResult)
    (borrowTokenDecimals : ℕ) (poolsMap : String → Option PoolData)
    (hlen : 3 ≤ testResults.length)
    (hsorted : List.Chain' (fun a b => a.amount ≤ b.amount) testResults) :
    (List.Chain' (fun a b => a.profitPercent < b.profitPercent) testResults →
      sendAnotherArbitrage jobPayload path testResults borrowTokenDecimals poolsMap false =
        some { jobPayload with
          borrowAmount := calculateSafeTradeAmount (pathPoolLiquidities path poolsMap) borrowTokenDecimals
          slippages := [990, 990, 990] }) ∧
    (¬ List.Chain' (fun a b => a.profitPercent ≤ b.profitPercent) testResults →
      sendAnotherArbitrage jobPayload path testResults borrowTokenDecimals poolsMap false = none) := by
  have hsort_eq : stableSort (fun a b => decide (a.amount ≤ b.amount)) testResults = testResults :=
    stableSort_of_chain _ testResults (hsorted.imp fun a b h => decide_eq_true h)
  constructor
  · intro hstrict
    unfold sendAnotherArbitrage
    rw [if_neg (Bool.false_ne_true), if_neg (by omega), hsort_eq,
      if_pos ((monotoneProfitCheck_iff testResults).mpr (hstrict.imp fun a b h => le_of_lt h))]
  · intro hnotmono
    unfold sendAnotherArbitrage
    rw [if_neg (Bool.false_ne_true), if_neg (by omega), hsort_eq,
      if_neg (fun hc => hnotmono ((monotoneProfitCheck_iff testResults).mp hc))]

def payloadW : StartArbitrageArgs := ⟨"t0", 5, "t1", "t2", 2, [997, 997, 997]⟩

def resultsW : List TestResult :=
  [⟨1, 0, 1, 0, 0, ⟨0, 0, 0⟩, false⟩,
   ⟨2, 0, 2, 0, 0, ⟨0, 0, 0⟩, false⟩,
   ⟨3, 0, 3, 0, 0, ⟨0, 0, 0⟩, false⟩]

/-- Witness for C3: three strictly increasing results queue exactly the one
scaled job. -/
theorem scaled_job_iff_monotone_witness :
    sendAnotherArbitrage payloadW [] resultsW 18 (fun _ => none) false =
      some { payloadW with
        borrowAmount := calculateSafeTradeAmount (pathPoolLiquidities [] (fun _ => none)) 18
        slippages := [990, 990, 990] } :=
  (scaled_job_iff_monotone payloadW [] resultsW 18 (fun _ => none)
    (by decide)
    (by norm_num [resultsW, List.chain'_cons, List.chain'_singleton])).1
    (by norm_num [resultsW, List.chain'_cons, List.chain'_singleton])

/-! ### Pool loading (utils-pool module, current revision)

`getTokenInfo` resolves token metadata with per-field fallbacks; the three
read calls are modelled by a per-address oracle (`none`: the whole resolution
failed, per-field `none`: that call rejected and its fallback applies).
`loadPoolData` is the Pool State Store's age-gated load; the pair-contract
reads are one oracle returning raw (integer, base-unit) reserves and supply. -/

structure TokenFetchResult where
  name : Option String
  symbol : Option String
  decimals : Option ℕ
deriving DecidableEq, Repr

structure PairFetchResult where
  token0 : String
  token1 : String
  reserve0 : ℤ
  reserve1 : ℤ
  totalSupply : ℤ
deriving DecidableEq, Repr

def getTokenInfo (tokenOracle : String → Option TokenFetchResult) (st : ScanState)
    (address : String) : TokenInfo × ScanState :=
  let address := lowerString address
  match st.tokenCache.lookup address with
  | some info => (info, st)
  | none =>
    match tokenOracle address with
    | some f =>
      let info : TokenInfo :=
        ⟨f.name.getD UNKNOW_TOKEN_NAME, f.symbol.getD UNKNOW_TOKEN_SYMBOL, f.decimals.getD 18⟩
      (info, { st with tokenCache := (address, info) :: st.tokenCache })
    | none => (⟨UNKNOW_TOKEN_NAME, UNKNOW_TOKEN_SYMBOL, 18⟩, st)

def updateTokenPoolsMap (tokenAddress poolAddress : String)
    (tokenPools : List (String × List String)) : List (String × List String) :=
  match tokenPools.lookup tokenAddress with
  | none => (tokenAddress, [poolAddress]) :: tokenPools
  | some _ =>
    tokenPools.map fun e =>
      if e.1 = tokenAddress then (e.1, if poolAddress ∈ e.2 then e.2 else e.2 ++ [poolAddress])
      else e

/-- JS `Map.set`: replace in place, or append a new binding. -/
def mapSet (key : String) (v : PoolData) : List (String × PoolData) → List (String × PoolData)
  | [] => [(key, v)]
  | e :: rest => if e.1 = key then (key, v) :: rest else e :: mapSet key v rest

/-- The skip-if-loaded-recently check at the top of `loadPoolData`: returns
the cached record when it exists, `forceRefresh` is off, and the record's age
in seconds is strictly below the applicable refresh interval (short for
priority index -1, long otherwise). -/
def freshCachedPool (forceRefresh : Bool) (index : ℤ) (now : ℕ) (st : ScanState)
    (pairAddress : String) : Option PoolData :=
  if forceRefresh then none
  else
    match st.poolsMap.lookup pairAddress with
    | none => none
    | some existing =>
      let secondsSinceUpdate : ℚ := ((now : ℚ) - (existing.updated : ℚ)) / 1000
      let refreshInterval : ℚ :=
        if index = -1 then PRIORITY_REFRESH_INTERVAL / 1000 else FULL_REFRESH_INTERVAL / 1000
      if secondsSinceUpdate < refreshInterval then some existing else none

def loadPoolData (pairAddress : String) (index : ℤ) (forceRefresh : Bool) (now : ℕ)
    (pairOracle : String → Option PairFetchResult)
    (tokenOracle : String → Option TokenFetchResult)
    (st : ScanState) : Option PoolData × ScanState :=
  let pairAddress := lowerString pairAddress
  match freshCachedPool forceRefresh index now st pairAddress with
  | some existing => (some existing, st)
  | none =>
    match pairOracle pairAddress with
    | none => (none, st)   -- fetch error: log, damping delay, null; nothing cached
    | some f =>
      let r0 := getTokenInfo tokenOracle st f.token0
      let r1 := getTokenInfo tokenOracle r0.2 f.token1
      let token0Info := r0.1
      let token1Info := r1.1
      let st2 := r1.2
      if token0Info.symbol = UNKNOW_TOKEN_SYMBOL ∨ token1Info.symbol = UNKNOW_TOKEN_SYMBOL then
        (none, st2)
      else
        let reserve0 : ℚ := (f.reserve0 : ℚ) / 10 ^ token0Info.decimals
        let reserve1 : ℚ := (f.reserve1 : ℚ) / 10 ^ token1Info.decimals
        let token0Price := reserve1 / reserve0
        let token1Price := reserve0 / reserve1
        let token0Lower := lowerString f.token0
        let token1Lower := lowerString f.token1
        let liquidityUSD : Option ℚ :=
          if token0Lower ∈ STABLECOIN_SET ∧ token1Lower ∈ STABLECOIN_SET then
            some (reserve0 + reserve1)
          else if token0Lower ∈ STABLECOIN_SET then some (reserve0 * 2)
          else if token1Lower ∈ STABLECOIN_SET then some (reserve1 * 2)
          else none
        let poolData : PoolData :=
          ⟨index, pairAddress,
           ⟨token0Lower, token0Info.name, token0Info.symbol, token0Info.decimals, reserve0⟩,
           ⟨token1Lower, token1Info.name, token1Info.symbol, token1Info.decimals, reserve1⟩,
           [(token0Info.symbol ++ "_PER_" ++ token1Info.symbol, token1Price),
            (token1Info.symbol ++ "_PER_" ++ token0Info.symbol, token0Price)],
           liquidityUSD, (f.totalSupply : ℚ) / 10 ^ 18, now⟩
        let st3 := { st2 with
          poolsMap := mapSet pairAddress poolData st2.poolsMap
          tokenPools := updateTokenPoolsMap token1Lower pairAddress
            (updateTokenPoolsMap token0Lower pairAddress st2.tokenPools) }
        (some poolData, st3)

theorem getTokenInfo_preserves (tokenOracle : String → Option TokenFetchResult)
    (st : ScanState) (a : String) :
    ((getTokenInfo tokenOracle st a).2).poolsMap = st.poolsMap ∧
    ((getTokenInfo tokenOracle st a).2).tokenPools = st.tokenPools := by
  unfold getTokenInfo
  dsimp only []
  split
  · exact ⟨rfl, rfl⟩
  · split
    · exact ⟨rfl, rfl⟩
    · exact ⟨rfl, rfl⟩

/-- C6 -- When the fetch path is taken (no fresh cached record) and either of
the pool's two tokens resolves to the unknown sentinel symbol, `loadPoolData`
returns null and modifies neither the Pool State Store nor the Token→Pools
Index. -/
theorem unknown_token_pool_not_cached (pairAddress : String) (index : ℤ)
    (forceRefresh : Bool) (now : ℕ)
    (pairOracle : String → Option PairFetchResult)
    (tokenOracle : String → Option TokenFetchResult)
    (st : ScanState) (f : PairFetchResult)
    (hfresh : freshCachedPool forceRefresh index now st (lowerString pairAddress) = none)
    (hfetch : pairOracle (lowerString pairAddress) = some f)
    (hunk : (getTokenInfo tokenOracle st f.token0).1.symbol = UNKNOW_TOKEN_SYMBOL ∨
      (getTokenInfo tokenOracle (getTokenInfo tokenOracle st f.token0).2 f.token1).1.symbol =
        UNKNOW_TOKEN_SYMBOL) :
    (loadPoolData pairAddress index forceRefresh now pairOracle tokenOracle st).1 = none ∧
    (loadPoolData pairAddress index forceRefresh now pairOracle tokenOracle st).2.poolsMap =
      st.poolsMap ∧
    (loadPoolData pairAddress index forceRefresh now pairOracle tokenOracle st).2.tokenPools =
      st.tokenPools := by
  unfold loadPoolData
  dsimp only []
  rw [hfresh, hfetch]
  dsimp only []
  rw [if_pos hunk]
  refine ⟨rfl, ?_, ?_⟩
  · rw [(getTokenInfo_preserves tokenOracle (getTokenInfo tokenOracle st f.token0).2 f.token1).1,
      (getTokenInfo_preserves tokenOracle st f.token0).1]
  · rw [(getTokenInfo_preserves tokenOracle (getTokenInfo tokenOracle st f.token0).2 f.token1).2,
      (getTokenInfo_preserves tokenOracle st f.token0).2]

def emptyStateW : ScanState := ⟨0, [], 0, [], [], []⟩

def pairOracleW : String → Option PairFetchResult := fun _ => some ⟨"0xT0", "0xT1", 1, 1, 1⟩

/-- Token oracle whose `symbol()` call rejects for every address, so the
symbol falls back to the unknown sentinel. -/
def tokenOracleUnknownW : String → Option TokenFetchResult :=
  fun _ => some ⟨some "SomeName", none, some 18⟩

/-- Witness for C6: with a symbol-rejecting token, the pool is not cached and
no index entry is added. -/
theorem unknown_token_pool_not_cached_witness :
    (loadPoolData "0xPair" 3 false 0 pairOracleW tokenOracleUnknownW emptyStateW).1 = none ∧
    (loadPoolData "0xPair" 3 false 0 pairOracleW tokenOracleUnknownW emptyStateW).2.poolsMap =
      emptyStateW.poolsMap ∧
    (loadPoolData "0xPair" 3 false 0 pairOracleW tokenOracleUnknownW emptyStateW).2.tokenPools =
      emptyStateW.tokenPools :=
  unknown_token_pool_not_cached "0xPair" 3 false 0 pairOracleW tokenOracleUnknownW emptyStateW
    ⟨"0xT0", "0xT1", 1, 1, 1⟩ (by decide) (by decide) (by decide)

/-- C7 -- For a record whose age is strictly below the applicable refresh
interval, `loadPoolData` with `forceRefresh = false` returns exactly the
cached record and the untouched state, for EVERY pair/token oracle -- the
result does not consult them, i.e. no external call is issued. -/
theorem fresh_cache_hit_returns_cached (pairAddress : String) (index : ℤ) (now : ℕ)
    (pairOracle : String → Option PairFetchResult)
    (tokenOracle : String → Option TokenFetchResult)
    (st : ScanState) (rec : PoolData)
    (hlook : st.poolsMap.lookup (lowerString pairAddress) = some rec)
    (hage : ((now : ℚ) - (rec.updated : ℚ)) / 1000 <
      (if index = -1 then PRIORITY_REFRESH_INTERVAL / 1000 else FULL_REFRESH_INTERVAL / 1000)) :
    loadPoolData pairAddress index false now pairOracle tokenOracle st = (some rec, st) := by
  unfold loadPoolData freshCachedPool
  dsimp only []
  rw [hlook]
  dsimp only []
  rw [if_pos hage]
  simp

def recW : PoolData := ⟨-1, "0xpair", ⟨"a", "A", "A", 18, 1⟩, ⟨"b", "B", "B", 18, 1⟩, [], none, 0, 0⟩

def cachedStateW : ScanState := ⟨0, [], 0, [], [("0xpair", recW)], []⟩

/-- Witness for C7: a one-second-old priority record is returned unchanged
with the state untouched, whatever the oracles would answer. -/
theorem fresh_cache_hit_returns_cached_witness :
    loadPoolData "0xPair" (-1) false 1000 pairOracleW tokenOracleUnknownW cachedStateW =
      (some recW, cachedStateW) :=
  fresh_cache_hit_returns_cached "0xPair" (-1) 1000 pairOracleW tokenOracleUnknownW
    cachedStateW recW (by decide)
    (by norm_num [recW, PRIORITY_REFRESH_INTERVAL])

/-! ### C9: properties of the random index generator -/

/-- C9 counterexample -- a call with `min = 2 ≤ max = 3` against a pool
universe of 1 (so the clamped upper bound is 0) returns the index 0, which
lies outside the claimed interval `[min, min(max, totalPools - 1)] = [2, 0]`:
the newly-added-pools loop (here with `POOLS_NEWLY_ADDED = 1`, the smallest
value for which that loop adds anything) always inserts the top indices,
ignoring `min`. -/
theorem generateRandomPoolIndices_out_of_range :
    (generateRandomPoolIndices 1 2 3 1 1 (fun _ => 0) 10).1 = [0] ∧ ¬(2 ≤ (0 : ℤ)) := by
  decide

theorem genLoop_acc_subset (rand : ℕ → ℚ) (lo hi count : ℤ) :
    ∀ (fuel k : ℕ) (acc : List ℤ) (x : ℤ), x ∈ acc →
      x ∈ (genLoop rand lo hi count fuel k acc).1
  | 0, _, _, _, hx => hx
  | fuel + 1, k, acc, x, hx => by
    rw [genLoop]
    split
    · apply genLoop_acc_subset rand lo hi count fuel (k+1)
      split
      · exact hx
      · exact List.mem_append_left _ hx
    · exact hx

theorem genLoop_mem_bounds (rand : ℕ → ℚ) (lo hi count : ℤ)
    (hrand : ∀ n, 0 ≤ rand n ∧ rand n < 1) :
    ∀ (fuel k : ℕ) (acc : List ℤ), (∀ x ∈ acc, lo ≤ x ∧ x ≤ hi) →
      ∀ x ∈ (genLoop rand lo hi count fuel k acc).1, lo ≤ x ∧ x ≤ hi
  | 0, _, _, hacc => hacc
  | fuel + 1, k, acc, hacc => by
    rw [genLoop]
    split
    · rename_i hguard
      apply genLoop_mem_bounds rand lo hi count hrand fuel (k+1)
      have hrange : (0 : ℤ) < hi - lo + 1 :=
        lt_of_le_of_lt (Int.ofNat_nonneg acc.length) hguard.2
      have hdraw : lo ≤ drawIndex rand k lo hi ∧ drawIndex rand k lo hi ≤ hi := by
        unfold drawIndex
        have hRq : (0 : ℚ) < ((hi - lo + 1 : ℤ) : ℚ) := by exact_mod_cast hrange
        constructor
        · have h0 : (0 : ℤ) ≤ ⌊rand k * ((hi - lo + 1 : ℤ) : ℚ)⌋ :=
            Int.le_floor.mpr (by
              push_cast
              exact mul_nonneg (hrand k).1 (by push_cast at hRq ⊢; linarith))
          push_cast at h0 ⊢
          omega
        · have h1 : ⌊rand k * ((hi - lo + 1 : ℤ) : ℚ)⌋ < hi - lo + 1 :=
            Int.floor_lt.mpr (by
              have := mul_lt_of_lt_one_left hRq (hrand k).2
              push_cast at this ⊢
              linarith)
          push_cast at h1 ⊢
          omega
      intro x hx
      split at hx
      · exact hacc x hx
      · rcases List.mem_append.mp hx with hxa | hxi
        · exact hacc x hxa
        · rw [List.mem_singleton.mp hxi]; exact hdraw
    · exact hacc

theorem genLoop_nodup (rand : ℕ → ℚ) (lo hi count : ℤ) :
    ∀ (fuel k : ℕ) (acc : List ℤ), acc.Nodup → (genLoop rand lo hi count fuel k acc).1.Nodup
  | 0, _, _, hacc => hacc
  | fuel + 1, k, acc, hacc => by
    rw [genLoop]
    split
    · apply genLoop_nodup rand lo hi count fuel (k+1)
      split
      · exact hacc
      · rename_i hnotmem
        simp [List.nodup_append, hacc, hnotmem]
    · exact hacc

theorem genLoop_more_fuel (rand : ℕ → ℚ) (lo hi count : ℤ) :
    ∀ (fuel k : ℕ) (acc : List ℤ), (genLoop rand lo hi count fuel k acc).2 = true →
      genLoop rand lo hi count (fuel + 1) k acc = genLoop rand lo hi count fuel k acc
  | 0, k, acc, h => by
    rw [genLoop] at h
    cases h
  | fuel + 1, k, acc, h => by
    by_cases hguard : (acc.length : ℤ) < count ∧ (acc.length : ℤ) < hi - lo + 1
    · rw [genLoop, if_pos hguard] at h
      rw [show genLoop rand lo hi count (fuel + 1 + 1) k acc =
            genLoop rand lo hi count (fuel + 1) (k + 1)
              (if drawIndex rand k lo hi ∈ acc then acc
               else acc ++ [drawIndex rand k lo hi]) from by
          rw [genLoop, if_pos hguard],
        show genLoop rand lo hi count (fuel + 1) k acc =
            genLoop rand lo hi count fuel (k + 1)
              (if drawIndex rand k lo hi ∈ acc then acc
               else acc ++ [drawIndex rand k lo hi]) from by
          rw [genLoop, if_pos hguard]]
      exact genLoop_more_fuel rand lo hi count fuel (k + 1) _ h
    · rw [genLoop, if_neg hguard, genLoop, if_neg hguard]

theorem genLoop_exhaust (rand : ℕ → ℚ) (lo hi count : ℤ) :
    ∀ (fuel k : ℕ) (acc : List ℤ), (genLoop rand lo hi count fuel k acc).2 = false →
      genLoop rand lo hi count (fuel + 1) k acc =
        genLoop rand lo hi count 1 (k + fuel) (genLoop rand lo hi count fuel k acc).1
  | 0, k, acc, _ => by rw [Nat.add_zero]; rfl
  | fuel + 1, k, acc, h => by
    by_cases hguard : (acc.length : ℤ) < count ∧ (acc.length : ℤ) < hi - lo + 1
    · rw [genLoop, if_pos hguard] at h
      have ih := genLoop_exhaust rand lo hi count fuel (k + 1) _ h
      rw [show genLoop rand lo hi count (fuel + 1 + 1) k acc =
            genLoop rand lo hi count (fuel + 1) (k + 1)
              (if drawIndex rand k lo hi ∈ acc then acc
               else acc ++ [drawIndex rand k lo hi]) from by
          rw [genLoop, if_pos hguard],
        ih,
        show genLoop rand lo hi count (fuel + 1) k acc =
            genLoop rand lo hi count fuel (k + 1)
              (if drawIndex rand k lo hi ∈ acc then acc
               else acc ++ [drawIndex rand k lo hi]) from by
          rw [genLoop, if_pos hguard],
        show k + 1 + fuel = k + (fuel + 1) from by omega]
    · rw [genLoop, if_neg hguard] at h
      cases h

theorem genLoop_false_mem (rand : ℕ → ℚ) (lo hi count : ℤ) :
    ∀ (fuel k : ℕ) (acc : List ℤ), (genLoop rand lo hi count fuel k acc).2 = false →
      ∀ j, j < fuel → drawIndex rand (k + j) lo hi ∈ (genLoop rand lo hi count fuel k acc).1
  | 0, _, _, _, j, hj => absurd hj (Nat.not_lt_zero j)
  | fuel + 1, k, acc, h, j, hj => by
    by_cases hguard : (acc.length : ℤ) < count ∧ (acc.length : ℤ) < hi - lo + 1
    · rw [genLoop, if_pos hguard] at h ⊢
      match j with
      | 0 =>
        rw [Nat.add_zero]
        apply genLoop_acc_subset
        split
        · assumption
        · exact List.mem_append_right _ (List.mem_singleton.mpr rfl)
      | j2 + 1 =>
        rw [show k + (j2 + 1) = k + 1 + j2 from by omega]
        exact genLoop_false_mem rand lo hi count fuel (k + 1) _ h j2 (by omega)
    · rw [genLoop, if_neg hguard] at h
      cases h

theorem newlyAddedGo_mem (hi : ℤ) :
    ∀ (n j : ℕ) (acc : List ℤ) (x : ℤ), x ∈ newlyAddedGo hi n j acc →
      x ∈ acc ∨ ∃ i : ℕ, j ≤ i ∧ i < j + n ∧ x = hi - (i : ℤ)
  | 0, _, _, _, hx => Or.inl hx
  | n + 1, j, acc, x, hx => by
    rw [newlyAddedGo] at hx
    rcases newlyAddedGo_mem hi n (j + 1) _ x hx with hxa | ⟨i, hi1, hi2, hie⟩
    · split at hxa
      · exact Or.inl hxa
      · rcases List.mem_append.mp hxa with hxa2 | hxj
        · exact Or.inl hxa2
        · exact Or.inr ⟨j, le_refl j, by omega, List.mem_singleton.mp hxj⟩
    · exact Or.inr ⟨i, by omega, by omega, hie⟩

theorem newlyAddedGo_nodup (hi : ℤ) :
    ∀ (n j : ℕ) (acc : List ℤ), acc.Nodup → (newlyAddedGo hi n j acc).Nodup
  | 0, _, _, hacc => hacc
  | n + 1, j, acc, hacc => by
    rw [newlyAddedGo]
    apply newlyAddedGo_nodup hi n (j + 1)
    split
    · exact hacc
    · rename_i hnotmem
      simp [List.nodup_append, hacc, hnotmem]

theorem newlyAddedFold_mem (hi newlyAdded : ℤ) (acc : List ℤ) :
    ∀ x ∈ newlyAddedFold hi newlyAdded acc, x ∈ acc ∨ (hi - newlyAdded + 1 ≤ x ∧ x ≤ hi) := by
  intro x hx
  rcases newlyAddedGo_mem hi newlyAdded.toNat 0 acc x hx with hxa | ⟨i, _, hi2, hie⟩
  · exact Or.inl hxa
  · right
    constructor
    · omega
    · omega

theorem newlyAddedFold_nodup (hi newlyAdded : ℤ) (acc : List ℤ) (hacc : acc.Nodup) :
    (newlyAddedFold hi newlyAdded acc).Nodup :=
  newlyAddedGo_nodup hi newlyAdded.toNat 0 acc hacc

/-- C9 (amended) -- For every call, with the random stream in `[0, 1)`:
all returned indices are pairwise distinct; every index lies either in
`[min, min(max, totalPools - 1)]` (the randomly drawn ones) or in the
always-included newest block
`[min(max, totalPools - 1) - POOLS_NEWLY_ADDED + 1, min(max, totalPools - 1)]`,
which can extend below `min`; and whenever the stream covers the clamped
interval within its first `M` draws (in particular when the requested count
exceeds the interval size), fuel `M + 2` makes the while-loop's guard fail,
i.e. the draw stops rather than looping forever. -/
theorem generateRandomPoolIndices_amended (count lo hi totalPools newlyAdded : ℤ)
    (rand : ℕ → ℚ) (hrand : ∀ n, 0 ≤ rand n ∧ rand n < 1) :
    (∀ fuel : ℕ,
      (generateRandomPoolIndices count lo hi totalPools newlyAdded rand fuel).1.Nodup ∧
      ∀ x ∈ (generateRandomPoolIndices count lo hi totalPools newlyAdded rand fuel).1,
        (lo ≤ x ∧ x ≤ min hi (totalPools - 1)) ∨
        (min hi (totalPools - 1) - newlyAdded + 1 ≤ x ∧ x ≤ min hi (totalPools - 1))) ∧
    (∀ M : ℕ,
      (∀ v : ℤ, lo ≤ v → v ≤ min hi (totalPools - 1) →
        ∃ n, n < M ∧ drawIndex rand n lo (min hi (totalPools - 1)) = v) →
      (generateRandomPoolIndices count lo hi totalPools newlyAdded rand (M + 2)).2 = true) := by
  constructor
  · intro fuel
    unfold generateRandomPoolIndices
    dsimp only []
    constructor
    · exact newlyAddedFold_nodup _ _ _
        (genLoop_nodup rand lo (min hi (totalPools - 1)) count fuel 0 [] List.nodup_nil)
    · intro x hx
      rcases newlyAddedFold_mem _ _ _ x hx with hxl | hxn
      · exact Or.inl (genLoop_mem_bounds rand lo (min hi (totalPools - 1)) count hrand fuel 0 []
          (fun y hy => absurd hy (List.not_mem_nil y)) x hxl)
      · exact Or.inr hxn
  · intro M hcov
    unfold generateRandomPoolIndices
    dsimp only []
    rcases hres : genLoop rand lo (min hi (totalPools - 1)) count (M + 1) 0 [] with ⟨res, stopped⟩
    match stopped, hres with
    | true, hres =>
      have := genLoop_more_fuel rand lo (min hi (totalPools - 1)) count (M + 1) 0 []
        (by rw [hres])
      rw [show M + 2 = M + 1 + 1 from rfl, this, hres]
    | false, hres =>
      have hmem : ∀ v : ℤ, lo ≤ v → v ≤ min hi (totalPools - 1) → v ∈ res := by
        intro v hv1 hv2
        rcases hcov v hv1 hv2 with ⟨n, hn, hdn⟩
        have := genLoop_false_mem rand lo (min hi (totalPools - 1)) count (M + 1) 0 []
          (by rw [hres]) n (by omega)
        rw [Nat.zero_add, hdn, hres] at this
        exact this
      have hsub : Finset.Icc lo (min hi (totalPools - 1)) ⊆ res.toFinset := by
        intro v hv
        rcases Finset.mem_Icc.mp hv with ⟨hv1, hv2⟩
        exact List.mem_toFinset.mpr (hmem v hv1 hv2)
      have hcard : (min hi (totalPools - 1) + 1 - lo).toNat ≤ res.length := by
        calc (min hi (totalPools - 1) + 1 - lo).toNat
            = (Finset.Icc lo (min hi (totalPools - 1))).card := (Int.card_Icc _ _).symm
          _ ≤ res.toFinset.card := Finset.card_le_card hsub
          _ ≤ res.length := res.toFinset_card_le
      have hlen : min hi (totalPools - 1) - lo + 1 ≤ (res.length : ℤ) := by
        have := Int.toNat_le.mp hcard
        omega
      have := genLoop_exhaust rand lo (min hi (totalPools - 1)) count (M + 1) 0 []
        (by rw [hres])
      rw [show M + 2 = M + 1 + 1 from rfl, this, hres]
      dsimp only []
      rw [genLoop]
      rw [if_neg (by
        intro hguard
        have := hguard.2
        omega)]

def randW : ℕ → ℚ := fun _ => 0

/-- Witness for C9 (amended): at `count = 5 > 1 = interval size`, constant
stream 0 covering the clamped interval `[0, 0]` within 1 draw, fuel 3 stops
the loop, and the returned list is duplicate-free. -/
theorem generateRandomPoolIndices_amended_witness :
    (generateRandomPoolIndices 5 0 0 1 1 randW 3).2 = true ∧
    (generateRandomPoolIndices 5 0 0 1 1 randW 3).1.Nodup := by
  have H := generateRandomPoolIndices_amended 5 0 0 1 1 randW
    (fun n => ⟨le_refl 0, by norm_num [randW]⟩)
  refine ⟨H.2 1 ?_, (H.1 3).1⟩
  intro v hv1 hv2
  refine ⟨0, Nat.zero_lt_one, ?_⟩
  have hv : v = 0 := by omega
  rw [hv]
  norm_num [drawIndex, randW]

end PancakeScan
